import Mathlib

/-!
Shallow embedding of `libaiac/config.go` from the aiac repository: the
configuration data model (`Config`, `BackendConfig`), the environment-variable
substitution pass (`replaceEnvVars`, `replaceEnvVar` = Go `os.ExpandEnv`), and
the loading entry point (`LoadConfig`).

Strings are embedded as `List Char`.  The characters that drive Go's
`os.Expand` scanner (`$`, `{`, `}`, shell-name characters) are all ASCII, and
UTF-8 multi-byte sequences never contain ASCII bytes, so Go's byte-level scan
and the character-level scan here coincide.

External collaborators (the TOML decoder `toml.DecodeFile`, the XDG path
resolver `xdg.ConfigFile`, and the process environment) are not part of this
repository's source; they are passed to `LoadConfig` as explicit parameters,
and the process environment is an association list with `os.Getenv` semantics
(undefined names resolve to the empty string).
-/

namespace Libaiac

/-- The left curly brace character (ASCII 123). -/
def lbrace : Char := Char.ofNat 123

/-- The right curly brace character (ASCII 125). -/
def rbrace : Char := Char.ofNat 125

/-- Go `os.isShellSpecialVar`: reports whether the character identifies a
special shell variable such as `$*`, `$#`, `$$`, `$@`, `$!`, `$?`, `$-`,
`$0`..`$9`. -/
def isShellSpecialVar (c : Char) : Bool :=
  c == '*' || c == '#' || c == '$' || c == '@' || c == '!' || c == '?' ||
    c == '-' || (decide (48 ≤ c.toNat) && decide (c.toNat ≤ 57))

/-- Go `os.isAlphaNum`: underscore, digits, lowercase and uppercase ASCII
letters. -/
def isAlphaNum (c : Char) : Bool :=
  c == '_' || (decide (48 ≤ c.toNat) && decide (c.toNat ≤ 57)) ||
    (decide (97 ≤ c.toNat) && decide (c.toNat ≤ 122)) ||
    (decide (65 ≤ c.toNat) && decide (c.toNat ≤ 90))

/-- The index of the first closing brace in a character list, if any.  This is
the scan `for i := 1; i < len(s); i++ { if s[i] == '}' ... }` inside the brace
branch of Go `os.getShellName`, with `cs` standing for `s[1:]` (so index `i`
in `s` is index `i - 1` in `cs`). -/
def findRBrace : List Char → Option Nat
  | [] => none
  | c :: rest => if c = rbrace then some 0 else (findRBrace rest).map (fun i => i + 1)

/-- The brace branch of Go `os.getShellName`, given `cs = s[1:]` (everything
after the opening brace).  A closing brace right away is bad syntax and eats
`${}` (width 2); a closing brace at `s`-index `i > 1` yields the name `s[1:i]`
with width `i + 1`; no closing brace is bad syntax eating just `${` (width 1). -/
def scanBrace (cs : List Char) : List Char × Nat :=
  match findRBrace cs with
  | some i => if i = 0 then ([], 2) else (cs.take i, i + 2)
  | none => ([], 1)

/-- Go `os.getShellName`: returns the name parsed from the start of the string
(which in `os.Expand` is everything after a `$`) and the number of characters
consumed.  A leading `{` triggers the brace forms (with a fast path for
`${<special>}`); a special shell variable is a one-character name; otherwise
the name is the longest alphanumeric prefix (possibly empty, width 0). -/
def getShellName : List Char → List Char × Nat
  | [] => ([], 0)
  | c :: cs =>
    if c == lbrace then
      match cs with
      | c1 :: c2 :: _ =>
        if isShellSpecialVar c1 && c2 == rbrace then ([c1], 3) else scanBrace cs
      | _ => scanBrace cs
    else if isShellSpecialVar c then ([c], 1)
    else ((c :: cs).takeWhile isAlphaNum, ((c :: cs).takeWhile isAlphaNum).length)

/-- Go `os.Expand`: replaces `$name` and `$\x7bname\x7d` references in the
string by `mapping name`.  A `$` that is the last character stays; invalid
syntax after a `$` (bad brace forms) eats the `$` together with the scanned
width; a `$` followed by no name at all (width 0) stays untouched.  The
mapping's output is spliced into the result and never rescanned. -/
def Expand (mapping : List Char → List Char) : List Char → List Char
  | [] => []
  | c :: rest =>
    if c == '$' then
      if rest = [] then
        [c]
      else
        let nw := getShellName rest
        if nw.1 == [] && decide (0 < nw.2) then
          Expand mapping (rest.drop nw.2)
        else if nw.1 == [] then
          c :: Expand mapping (rest.drop nw.2)
        else
          mapping nw.1 ++ Expand mapping (rest.drop nw.2)
    else
      c :: Expand mapping rest
termination_by s => s.length
decreasing_by
  all_goals simp only [List.length_drop, List.length_cons]
  all_goals omega

/-- A process environment: an association list from variable names to values. -/
abbrev Env := List (List Char × List Char)

/-- First-match association-list lookup (Go map indexing / linear search). -/
def lookupAssoc {β : Type} : List (List Char × β) → List Char → Option β
  | [], _ => none
  | (k, v) :: rest, n => if k = n then some v else lookupAssoc rest n

/-- Go `os.Getenv`: the value of the variable in the environment, or the empty
string when the variable is undefined. -/
def getenv (env : Env) (n : List Char) : List Char :=
  (lookupAssoc env n).getD []

/-- Go `os.ExpandEnv`: `Expand` with the process environment as mapping. -/
def ExpandEnv (env : Env) (s : List Char) : List Char :=
  Expand (getenv env) s

/-- `replaceEnvVar` from `config.go`: replaces environment variables in a
string with their actual values via `os.ExpandEnv`. -/
def replaceEnvVar (env : Env) (s : List Char) : List Char :=
  ExpandEnv env s

/-- `BackendConfig` from `config.go`: backend-specific configuration.  The Go
`BackendType` is a string type, embedded directly as a string. -/
structure BackendConfig where
  «Type» : List Char
  AWSProfile : List Char
  AWSRegion : List Char
  APIKey : List Char
  APIVersion : List Char
  URL : List Char
  DefaultModel : List Char
  ExtraHeaders : List (List Char × List Char)
deriving DecidableEq, Repr

/-- `Config` from `config.go`: the map of named backends (embedded as an
association list; Go map iteration order is irrelevant to the claims) and the
default backend name. -/
structure Config where
  Backends : List (List Char × BackendConfig)
  DefaultBackend : List Char
deriving DecidableEq, Repr

/-- The body of the `for backendName, backendConfig := range conf.Backends`
loop of `replaceEnvVars` in `config.go`: each of the six string fields is
replaced by its substitution when it is non-empty and kept otherwise.  In the
Go source the six updates are sequential in-place assignments; since each
condition reads only the field that its own assignment writes, the
simultaneous record update is the same function. -/
def replaceEnvVarsStep (env : Env) (backendConfig : BackendConfig) : BackendConfig :=
  { backendConfig with
    APIKey := if backendConfig.APIKey ≠ [] then replaceEnvVar env backendConfig.APIKey else backendConfig.APIKey,
    AWSProfile := if backendConfig.AWSProfile ≠ [] then replaceEnvVar env backendConfig.AWSProfile else backendConfig.AWSProfile,
    AWSRegion := if backendConfig.AWSRegion ≠ [] then replaceEnvVar env backendConfig.AWSRegion else backendConfig.AWSRegion,
    URL := if backendConfig.URL ≠ [] then replaceEnvVar env backendConfig.URL else backendConfig.URL,
    DefaultModel := if backendConfig.DefaultModel ≠ [] then replaceEnvVar env backendConfig.DefaultModel else backendConfig.DefaultModel,
    APIVersion := if backendConfig.APIVersion ≠ [] then replaceEnvVar env backendConfig.APIVersion else backendConfig.APIVersion }

/-- `replaceEnvVars` from `config.go`: applies the loop body to every entry of
`conf.Backends`, writing each updated profile back under its original key. -/
def replaceEnvVars (env : Env) (conf : Config) : Config :=
  { conf with
    Backends := conf.Backends.map (fun p => (p.1, replaceEnvVarsStep env p.2)) }

/-- The two error kinds of `LoadConfig`: the Go code wraps the underlying
error either as `failed getting default config path: %w` (path resolution) or
as `failed loading configuration: %w` (decoding). -/
inductive LoadError (E : Type) where
  | pathResolution : E → LoadError E
  | decodeFailure : E → LoadError E
deriving DecidableEq, Repr

/-- The application-relative configuration file name passed to
`xdg.ConfigFile` in `LoadConfig`. -/
def aiacRelPath : List Char := "aiac/aiac.toml".toList

/-- The `if path == ""` block of `LoadConfig`: an empty path is replaced by
`xdg.ConfigFile("aiac/aiac.toml")`, whose failure is wrapped and returned; a
non-empty path is used verbatim. -/
def resolvePath {E : Type} (xdgConfigFile : List Char → Except E (List Char))
    (path : List Char) : Except (LoadError E) (List Char) :=
  if path = [] then
    match xdgConfigFile aiacRelPath with
    | Except.error e => Except.error (LoadError.pathResolution e)
    | Except.ok p => Except.ok p
  else
    Except.ok path

/-- `LoadConfig` from `config.go`: resolve the path (default path via XDG when
the argument is empty), decode the file at the resolved path (failure wrapped
as a decode failure), then replace environment variables in the decoded
configuration.  The collaborators `xdg.ConfigFile` and `toml.DecodeFile` are
explicit parameters. -/
def LoadConfig {E : Type} (xdgConfigFile : List Char → Except E (List Char))
    (decodeFile : List Char → Except E Config) (env : Env)
    (path : List Char) : Except (LoadError E) Config :=
  match resolvePath xdgConfigFile path with
  | Except.error e => Except.error e
  | Except.ok p =>
    match decodeFile p with
    | Except.error e => Except.error (LoadError.decodeFailure e)
    | Except.ok conf => Except.ok (replaceEnvVars env conf)

/-- The braced form of a variable reference: `$\x7bn\x7d` as a character
list. -/
def braceRef (n : List Char) : List Char :=
  '$' :: lbrace :: (n ++ [rbrace])

/-- Modelled from the spec: one backend section of the on-disk document, as
seen by the external TOML decoder (`toml.DecodeFile`, not part of this
repository's source).  Per the spec, "every field defaults to its zero value
(empty string / empty map) when absent from the source file. No field is
required." — so each field is optional in the document. -/
structure BackendDoc where
  type : Option (List Char)
  aws_profile : Option (List Char)
  aws_region : Option (List Char)
  api_key : Option (List Char)
  api_version : Option (List Char)
  url : Option (List Char)
  default_model : Option (List Char)
  extra_headers : Option (List (List Char × List Char))
deriving DecidableEq, Repr

/-- Modelled from the spec: the top level of the on-disk document. -/
structure ConfigDoc where
  backends : Option (List (List Char × BackendDoc))
  default_backend : Option (List Char)
deriving DecidableEq, Repr

/-- Modelled from the spec: decoding one backend section — every absent field
becomes its zero value (empty string / empty map). -/
def decodeBackendDoc (d : BackendDoc) : BackendConfig :=
  { «Type» := d.type.getD []
    AWSProfile := d.aws_profile.getD []
    AWSRegion := d.aws_region.getD []
    APIKey := d.api_key.getD []
    APIVersion := d.api_version.getD []
    URL := d.url.getD []
    DefaultModel := d.default_model.getD []
    ExtraHeaders := d.extra_headers.getD [] }

/-- Modelled from the spec: decoding the whole document — absent `backends`
becomes the empty map and absent `default_backend` the empty string. -/
def decodeConfigDoc (d : ConfigDoc) : Config :=
  { Backends := (d.backends.getD []).map (fun p => (p.1, decodeBackendDoc p.2))
    DefaultBackend := d.default_backend.getD [] }

/-- A concrete environment binding `FOO=bar`, used by examples. -/
def envFOO : Env := [("FOO".toList, "bar".toList)]

/-- The environment `MY_KEY=sk-123` of the end-to-end example. -/
def c6Env : Env := [("MY_KEY".toList, "sk-123".toList)]

/-- The backend profile decoded from
`[backends.openai] type="openai" api_key="$MY_KEY"`. -/
def c6Backend : BackendConfig :=
  { «Type» := "openai".toList
    AWSProfile := []
    AWSRegion := []
    APIKey := "$MY_KEY".toList
    APIVersion := []
    URL := []
    DefaultModel := []
    ExtraHeaders := [] }

/-- The configuration decoded from the end-to-end example document. -/
def c6Conf : Config :=
  { Backends := [("openai".toList, c6Backend)]
    DefaultBackend := [] }

/-- A concrete backend profile used by witnesses: all six substitutable
fields empty, `Type` and `ExtraHeaders` non-empty and containing variable
syntax. -/
def wBackend : BackendConfig :=
  { «Type» := "openai".toList
    AWSProfile := []
    AWSRegion := []
    APIKey := []
    APIVersion := []
    URL := []
    DefaultModel := []
    ExtraHeaders := [("$FOO".toList, "$FOO".toList)] }

/-- A concrete configuration used by witnesses. -/
def wConf : Config :=
  { Backends := [("one".toList, wBackend)]
    DefaultBackend := "$FOO".toList }

/-- A concrete non-empty path used by witnesses. -/
def wPath : List Char := "cfg.toml".toList

/-- A concrete XDG resolver used by witnesses. -/
def wXdg : List Char → Except Nat (List Char) :=
  fun _ => Except.ok "home".toList

/-- A concrete always-failing decoder used by witnesses. -/
def wDecodeErr : List Char → Except Nat Config :=
  fun _ => Except.error 0

/-- A concrete decoder used by witnesses: returns the end-to-end example
configuration at `wPath` and fails elsewhere. -/
def wDecode : List Char → Except Nat Config :=
  fun q => if q = wPath then Except.ok c6Conf else Except.error 0

/-- A second decoder agreeing with `wDecode` at `wPath` only. -/
def wDecode2 : List Char → Except Nat Config :=
  fun q => if q = wPath then Except.ok c6Conf else Except.error 1

/-- The zipped entry pair of `wConf` before and after the substitution pass,
used by a witness. -/
def wPr : (List Char × BackendConfig) × (List Char × BackendConfig) :=
  (("one".toList, wBackend), ("one".toList, replaceEnvVarsStep envFOO wBackend))

/-- The all-absent document, used by the zero-value witness. -/
def wDoc : ConfigDoc := { backends := none, default_backend := none }

/-- The all-absent backend section, used by the zero-value witness. -/
def wBackendDoc : BackendDoc :=
  { type := none, aws_profile := none, aws_region := none, api_key := none
    api_version := none, url := none, default_model := none, extra_headers := none }

/-! ## Unfolding and splicing lemmas for the scanner -/

theorem Expand_nil (m : List Char → List Char) : Expand m [] = [] := by
  rw [Expand]

/-- One-step unfolding of `Expand`, mirroring the body of the definition. -/
theorem Expand_cons (m : List Char → List Char) (c : Char) (rest : List Char) :
    Expand m (c :: rest) =
      if c == '$' then
        if rest = [] then [c]
        else
          let nw := getShellName rest
          if nw.1 == [] && decide (0 < nw.2) then Expand m (rest.drop nw.2)
          else if nw.1 == [] then c :: Expand m (rest.drop nw.2)
          else m nw.1 ++ Expand m (rest.drop nw.2)
      else c :: Expand m rest := by
  rw [Expand]

/-- A non-`$` head character passes through the scanner unchanged. -/
theorem Expand_cons_ne (m : List Char → List Char) (c : Char) (l : List Char)
    (h : c ≠ '$') : Expand m (c :: l) = c :: Expand m l := by
  rw [Expand_cons]
  simp [h]

/-- A `$`-free prefix passes through the scanner unchanged. -/
theorem Expand_append_plain (m : List Char → List Char) (p rest : List Char)
    (h : '$' ∉ p) : Expand m (p ++ rest) = p ++ Expand m rest := by
  induction p with
  | nil => simp
  | cons c p2 ih =>
    have hc : c ≠ '$' := fun hc => h (hc ▸ List.mem_cons_self c p2)
    have hp2 : '$' ∉ p2 := fun hm => h (List.mem_cons_of_mem c hm)
    simp only [List.cons_append, Expand_cons_ne m c _ hc, ih hp2]

/-- Position of the first closing brace when it terminates a brace-free
name. -/
theorem findRBrace_append (n rest : List Char) (h : rbrace ∉ n) :
    findRBrace (n ++ rbrace :: rest) = some n.length := by
  induction n with
  | nil => simp [findRBrace]
  | cons c n2 ih =>
    have hc : c ≠ rbrace := fun hc => h (hc ▸ List.mem_cons_self c n2)
    have hn2 : rbrace ∉ n2 := fun hm => h (List.mem_cons_of_mem c hm)
    simp [findRBrace, hc, ih hn2]

/-- The brace scan on a well-formed `name\x7d` suffix returns the name and the
width of `\x7bname\x7d`. -/
theorem scanBrace_spec (n rest : List Char) (h1 : n ≠ []) (h2 : rbrace ∉ n) :
    scanBrace (n ++ rbrace :: rest) = (n, n.length + 2) := by
  have hlen : n.length ≠ 0 := by simpa using h1
  unfold scanBrace
  rw [findRBrace_append n rest h2]
  simp only [hlen, if_false, List.take_left]

/-- `getShellName` on a well-formed `\x7bname\x7d` suffix returns the name and
its consumed width. -/
theorem getShellName_brace (n rest : List Char) (h1 : n ≠ []) (h2 : rbrace ∉ n) :
    getShellName (lbrace :: (n ++ rbrace :: rest)) = (n, n.length + 2) := by
  match n, h1 with
  | [a], _ =>
    unfold getShellName
    by_cases hs : isShellSpecialVar a = true
    · simp [hs]
    · simp only [beq_self_eq_true, if_true, List.singleton_append, hs,
        Bool.false_and, Bool.false_eq_true, if_false]
      simpa using scanBrace_spec [a] rest (by simp) h2
  | a :: b :: n2, _ =>
    have hb : b ≠ rbrace := fun hb => h2 (hb ▸ List.mem_cons_of_mem a (List.mem_cons_self b n2))
    unfold getShellName
    simp only [beq_self_eq_true, if_true, List.cons_append, hb, beq_iff_eq,
      Bool.and_eq_true, and_false, if_false]
    have : a :: b :: (n2 ++ rbrace :: rest) = (a :: b :: n2) ++ rbrace :: rest := by simp
    rw [this, scanBrace_spec (a :: b :: n2) rest (by simp) h2]

/-- Splicing a braced reference: `Expand` replaces it by the mapping's value
and continues after the closing brace. -/
theorem Expand_braceRef (m : List Char → List Char) (n rest : List Char)
    (h1 : n ≠ []) (h2 : rbrace ∉ n) :
    Expand m (braceRef n ++ rest) = m n ++ Expand m rest := by
  have hb : braceRef n ++ rest = '$' :: lbrace :: (n ++ rbrace :: rest) := by
    simp [braceRef]
  rw [hb, Expand_cons]
  have hne : lbrace :: (n ++ rbrace :: rest) ≠ [] := by simp
  simp only [beq_self_eq_true, if_true, hne, if_false,
    getShellName_brace n rest h1 h2]
  have hn : (n == []) = false := by simpa using h1
  simp only [hn, Bool.false_and, Bool.false_eq_true, if_false]
  have hdrop : (lbrace :: (n ++ rbrace :: rest)).drop (n.length + 2) = rest := by
    have : n ++ rbrace :: rest = (n ++ [rbrace]) ++ rest := by simp
    simp only [List.drop_succ_cons, this]
    have hlen : n.length + 1 = (n ++ [rbrace]).length := by simp
    rw [hlen, List.drop_left]
  rw [hdrop]

/-- `takeWhile` consumes exactly an all-satisfying prefix when the remainder
starts with a failing character. -/
theorem takeWhile_append_eq (p : Char → Bool) (n rest : List Char)
    (h1 : ∀ c ∈ n, p c = true) (h2 : rest.takeWhile p = []) :
    (n ++ rest).takeWhile p = n := by
  induction n with
  | nil => simpa using h2
  | cons c n2 ih =>
    simp only [List.cons_append, List.takeWhile_cons, h1 c (List.mem_cons_self c n2),
      if_true]
    rw [ih (fun c hc => h1 c (List.mem_cons_of_mem _ hc))]

/-- `getShellName` on an alphanumeric name (not starting with a digit or other
special character) followed by a non-name suffix. -/
theorem getShellName_name (c0 : Char) (n1 rest : List Char)
    (h0 : isAlphaNum c0 = true) (hs : isShellSpecialVar c0 = false)
    (h1 : ∀ c ∈ n1, isAlphaNum c = true) (h2 : rest.takeWhile isAlphaNum = []) :
    getShellName ((c0 :: n1) ++ rest) = (c0 :: n1, n1.length + 1) := by
  have hlb : (c0 == lbrace) = false := by
    cases hc : c0 == lbrace
    · rfl
    · exfalso
      have : c0 = lbrace := by simpa using hc
      rw [this] at h0
      simp [isAlphaNum, lbrace] at h0
  unfold getShellName
  simp only [List.cons_append, hlb, Bool.false_eq_true, if_false, hs]
  have htw : (c0 :: (n1 ++ rest)).takeWhile isAlphaNum = c0 :: n1 := by
    have : c0 :: (n1 ++ rest) = (c0 :: n1) ++ rest := by simp
    rw [this]
    exact takeWhile_append_eq isAlphaNum (c0 :: n1) rest
      (fun c hc => by
        rcases List.mem_cons.mp hc with h | h
        · rw [h]; exact h0
        · exact h1 c h) h2
  rw [htw]
  simp

/-- Splicing a plain `$name` reference followed by a non-name suffix. -/
theorem Expand_dollar_name (m : List Char → List Char) (c0 : Char)
    (n1 rest : List Char)
    (h0 : isAlphaNum c0 = true) (hs : isShellSpecialVar c0 = false)
    (h1 : ∀ c ∈ n1, isAlphaNum c = true) (h2 : rest.takeWhile isAlphaNum = []) :
    Expand m ('$' :: ((c0 :: n1) ++ rest)) = m (c0 :: n1) ++ Expand m rest := by
  rw [Expand_cons]
  have hne : (c0 :: n1) ++ rest ≠ [] := by simp
  simp only [beq_self_eq_true, if_true, hne, if_false,
    getShellName_name c0 n1 rest h0 hs h1 h2]
  have hfalse : ((c0 :: n1 : List Char) == []) = false := by simp
  simp only [hfalse, Bool.false_and, Bool.false_eq_true, if_false]
  have hdrop : ((c0 :: n1) ++ rest).drop (n1.length + 1) = rest := by
    have hlen : n1.length + 1 = (c0 :: n1).length := by simp
    rw [hlen, List.drop_left]
  rw [hdrop]

/-- A `$`-free string passes through the scanner unchanged. -/
theorem Expand_plain (m : List Char → List Char) (s : List Char)
    (h : '$' ∉ s) : Expand m s = s := by
  have := Expand_append_plain m s [] h
  simpa [Expand_nil] using this

/-! ## Field projections of the substitution loop body -/

theorem replaceEnvVarsStep_Type (env : Env) (bc : BackendConfig) :
    (replaceEnvVarsStep env bc).«Type» = bc.«Type» := rfl

theorem replaceEnvVarsStep_ExtraHeaders (env : Env) (bc : BackendConfig) :
    (replaceEnvVarsStep env bc).ExtraHeaders = bc.ExtraHeaders := rfl

theorem replaceEnvVarsStep_APIKey (env : Env) (bc : BackendConfig) :
    (replaceEnvVarsStep env bc).APIKey =
      if bc.APIKey ≠ [] then replaceEnvVar env bc.APIKey else bc.APIKey := rfl

theorem replaceEnvVarsStep_AWSProfile (env : Env) (bc : BackendConfig) :
    (replaceEnvVarsStep env bc).AWSProfile =
      if bc.AWSProfile ≠ [] then replaceEnvVar env bc.AWSProfile else bc.AWSProfile := rfl

theorem replaceEnvVarsStep_AWSRegion (env : Env) (bc : BackendConfig) :
    (replaceEnvVarsStep env bc).AWSRegion =
      if bc.AWSRegion ≠ [] then replaceEnvVar env bc.AWSRegion else bc.AWSRegion := rfl

theorem replaceEnvVarsStep_URL (env : Env) (bc : BackendConfig) :
    (replaceEnvVarsStep env bc).URL =
      if bc.URL ≠ [] then replaceEnvVar env bc.URL else bc.URL := rfl

theorem replaceEnvVarsStep_DefaultModel (env : Env) (bc : BackendConfig) :
    (replaceEnvVarsStep env bc).DefaultModel =
      if bc.DefaultModel ≠ [] then replaceEnvVar env bc.DefaultModel else bc.DefaultModel := rfl

theorem replaceEnvVarsStep_APIVersion (env : Env) (bc : BackendConfig) :
    (replaceEnvVarsStep env bc).APIVersion =
      if bc.APIVersion ≠ [] then replaceEnvVar env bc.APIVersion else bc.APIVersion := rfl

/-! ## Claim theorems -/

/-- C4: with the environment binding `FOO=bar`, `substitute` maps `$FOO` and
`$\x7bFOO\x7d` to `bar`; an undefined variable `BAZ` expands to the empty
string; and a string containing several (braced) variable references
interleaved with `$`-free segments has all of them replaced. -/
theorem C4_substitution_values :
    replaceEnvVar envFOO "$FOO".toList = "bar".toList ∧
    replaceEnvVar envFOO "${FOO}".toList = "bar".toList ∧
    replaceEnvVar envFOO "$BAZ".toList = [] ∧
    (∀ (env : Env) (p0 p1 p2 n1 n2 : List Char),
      '$' ∉ p0 → '$' ∉ p1 → '$' ∉ p2 →
      n1 ≠ [] → rbrace ∉ n1 → n2 ≠ [] → rbrace ∉ n2 →
      replaceEnvVar env (p0 ++ braceRef n1 ++ p1 ++ braceRef n2 ++ p2) =
        p0 ++ getenv env n1 ++ p1 ++ getenv env n2 ++ p2) := by
  refine ⟨?_, ?_, ?_, ?_⟩
  · have e1 : ("$FOO".toList : List Char) = '$' :: (('F' :: ['O', 'O']) ++ []) := by decide
    have h := Expand_dollar_name (getenv envFOO) 'F' ['O', 'O'] []
      (by decide) (by decide) (by decide) rfl
    calc replaceEnvVar envFOO "$FOO".toList
        = Expand (getenv envFOO) ('$' :: (('F' :: ['O', 'O']) ++ [])) := by
          rw [replaceEnvVar, ExpandEnv, e1]
      _ = getenv envFOO ('F' :: ['O', 'O']) ++ Expand (getenv envFOO) [] := h
      _ = "bar".toList := by rw [Expand_nil]; decide
  · have e2 : ("${FOO}".toList : List Char) = braceRef "FOO".toList ++ [] := by decide
    have h := Expand_braceRef (getenv envFOO) "FOO".toList [] (by decide) (by decide)
    calc replaceEnvVar envFOO "${FOO}".toList
        = Expand (getenv envFOO) (braceRef "FOO".toList ++ []) := by rw [replaceEnvVar, ExpandEnv, e2]
      _ = getenv envFOO "FOO".toList ++ Expand (getenv envFOO) [] := h
      _ = "bar".toList := by rw [Expand_nil]; decide
  · have e3 : ("$BAZ".toList : List Char) = '$' :: (('B' :: ['A', 'Z']) ++ []) := by decide
    have h := Expand_dollar_name (getenv envFOO) 'B' ['A', 'Z'] []
      (by decide) (by decide) (by decide) rfl
    calc replaceEnvVar envFOO "$BAZ".toList
        = Expand (getenv envFOO) ('$' :: (('B' :: ['A', 'Z']) ++ [])) := by
          rw [replaceEnvVar, ExpandEnv, e3]
      _ = getenv envFOO ('B' :: ['A', 'Z']) ++ Expand (getenv envFOO) [] := h
      _ = [] := by rw [Expand_nil]; decide
  · intro env p0 p1 p2 n1 n2 h0 h1 h2 hn1 hb1 hn2 hb2
    show Expand (getenv env) _ = _
    simp only [List.append_assoc]
    rw [Expand_append_plain _ _ _ h0, Expand_braceRef _ _ _ hn1 hb1,
      Expand_append_plain _ _ _ h1, Expand_braceRef _ _ _ hn2 hb2,
      Expand_plain _ _ h2]

/-- C5: `substitute` is a total function on strings (`replaceEnvVar` is a
plain Lean function, defined for every environment and every string and
returning a string); on a string containing no variable syntax (no `$`
character) it is the identity, for every environment. -/
theorem C5_identity_on_plain (env : Env) (s : List Char) (h : '$' ∉ s) :
    replaceEnvVar env s = s :=
  Expand_plain (getenv env) s h

/-- C8: the substitution pass never touches the top-level `DefaultBackend`
field — it is byte-identical before and after the pass, whatever it
contains; only entries of `Backends` are rewritten. -/
theorem C8_defaultBackend_untouched (env : Env) (conf : Config) :
    (replaceEnvVars env conf).DefaultBackend = conf.DefaultBackend := rfl

/-- C9: the substitution pass preserves the key list of `Backends` (hence
its key set), and every profile of the input is rewritten in place: its
updated version is stored under the original key. -/
theorem C9_keys_preserved (env : Env) (conf : Config) :
    (replaceEnvVars env conf).Backends.map Prod.fst = conf.Backends.map Prod.fst ∧
    ∀ k bc, (k, bc) ∈ conf.Backends →
      ∃ bc2, (k, bc2) ∈ (replaceEnvVars env conf).Backends := by
  constructor
  · simp [replaceEnvVars, List.map_map, Function.comp]
  · intro k bc h
    exact ⟨replaceEnvVarsStep env bc,
      List.mem_map_of_mem
        (fun p : List Char × BackendConfig => (p.1, replaceEnvVarsStep env p.2)) h⟩

/-- C1: the substitution pass pairs every input entry of `Backends` with an
output entry under the same key, and on each profile it substitutes exactly
the six fields `APIKey`, `AWSProfile`, `AWSRegion`, `URL`, `DefaultModel`,
`APIVersion`, each only when non-empty (an empty field stays empty), while
`Type` and `ExtraHeaders` (keys and values) are byte-identical — there is no
other field in a profile, so nothing else changes. -/
theorem C1_field_selection (env : Env) (conf : Config) :
    (replaceEnvVars env conf).Backends.length = conf.Backends.length ∧
    ∀ pr ∈ conf.Backends.zip (replaceEnvVars env conf).Backends,
      pr.2.1 = pr.1.1 ∧
      pr.2.2.«Type» = pr.1.2.«Type» ∧
      pr.2.2.ExtraHeaders = pr.1.2.ExtraHeaders ∧
      (pr.1.2.APIKey = [] → pr.2.2.APIKey = []) ∧
      (pr.1.2.APIKey ≠ [] → pr.2.2.APIKey = replaceEnvVar env pr.1.2.APIKey) ∧
      (pr.1.2.AWSProfile = [] → pr.2.2.AWSProfile = []) ∧
      (pr.1.2.AWSProfile ≠ [] → pr.2.2.AWSProfile = replaceEnvVar env pr.1.2.AWSProfile) ∧
      (pr.1.2.AWSRegion = [] → pr.2.2.AWSRegion = []) ∧
      (pr.1.2.AWSRegion ≠ [] → pr.2.2.AWSRegion = replaceEnvVar env pr.1.2.AWSRegion) ∧
      (pr.1.2.URL = [] → pr.2.2.URL = []) ∧
      (pr.1.2.URL ≠ [] → pr.2.2.URL = replaceEnvVar env pr.1.2.URL) ∧
      (pr.1.2.DefaultModel = [] → pr.2.2.DefaultModel = []) ∧
      (pr.1.2.DefaultModel ≠ [] → pr.2.2.DefaultModel = replaceEnvVar env pr.1.2.DefaultModel) ∧
      (pr.1.2.APIVersion = [] → pr.2.2.APIVersion = []) ∧
      (pr.1.2.APIVersion ≠ [] → pr.2.2.APIVersion = replaceEnvVar env pr.1.2.APIVersion) := by
  constructor
  · simp [replaceEnvVars]
  · have hzip : conf.Backends.zip ((replaceEnvVars env conf).Backends) =
        conf.Backends.map
          (fun a => (a, (a.1, replaceEnvVarsStep env a.2))) := by
      have h := List.zip_map' (id : List Char × BackendConfig → List Char × BackendConfig)
        (fun p : List Char × BackendConfig => (p.1, replaceEnvVarsStep env p.2))
        conf.Backends
      simpa [replaceEnvVars] using h
    rw [hzip]
    intro pr hpr
    rcases List.mem_map.mp hpr with ⟨a, _, rfl⟩
    refine ⟨rfl, rfl, rfl, ?_, ?_, ?_, ?_, ?_, ?_, ?_, ?_, ?_, ?_, ?_, ?_⟩
    all_goals intro h
    all_goals simp only [replaceEnvVarsStep_APIKey, replaceEnvVarsStep_AWSProfile,
      replaceEnvVarsStep_AWSRegion, replaceEnvVarsStep_URL,
      replaceEnvVarsStep_DefaultModel, replaceEnvVarsStep_APIVersion]
    all_goals simp at h
    all_goals simp [h]

/-- C2: `LoadConfig` fails exactly when default-path resolution fails (which
requires the explicit path to be empty) or when decoding the resolved path
fails, each error wrapped in the constructor identifying the failing step;
and it succeeds exactly when the whole pipeline ran, returning the decoded
configuration after substitution — no partial-success outcome exists.  In
particular, with an empty path, a successful default-path resolution and a
failing decode (e.g. no file at the default path), the result is a
decode-failure error. -/
theorem C2_error_characterization {E : Type}
    (xdgf : List Char → Except E (List Char))
    (decodeFile : List Char → Except E Config) (env : Env) (path : List Char) :
    (∀ e : E, LoadConfig xdgf decodeFile env path =
        Except.error (LoadError.pathResolution e) ↔
      path = [] ∧ xdgf aiacRelPath = Except.error e) ∧
    (∀ e : E, LoadConfig xdgf decodeFile env path =
        Except.error (LoadError.decodeFailure e) ↔
      ∃ p, resolvePath xdgf path = Except.ok p ∧ decodeFile p = Except.error e) ∧
    (∀ conf : Config, LoadConfig xdgf decodeFile env path = Except.ok conf ↔
      ∃ p c0, resolvePath xdgf path = Except.ok p ∧ decodeFile p = Except.ok c0 ∧
        conf = replaceEnvVars env c0) := by
  by_cases hp : path = []
  · cases hx : xdgf aiacRelPath with
    | error e0 => simp [LoadConfig, resolvePath, hp, hx]
    | ok p0 =>
      cases hd : decodeFile p0 with
      | error e0 => simp [LoadConfig, resolvePath, hp, hx, hd]
      | ok c0 =>
        simp [LoadConfig, resolvePath, hp, hx, hd]
        exact fun conf => eq_comm
  · cases hd : decodeFile path with
    | error e0 => simp [LoadConfig, resolvePath, hp, hd]
    | ok c0 =>
      simp [LoadConfig, resolvePath, hp, hd]
      exact fun conf => eq_comm

/-- C3: a non-empty explicit path is decoded verbatim — the result does not
depend on the XDG resolver at all, a decode failure at that very path is the
call's failure and a decode success at that very path the call's success;
with the empty path, the file decoded is whatever the XDG resolver returns
for the application-relative name `aiac/aiac.toml`. -/
theorem C3_explicit_path_verbatim {E : Type}
    (xdgf : List Char → Except E (List Char))
    (decodeFile : List Char → Except E Config) (env : Env) (path : List Char) :
    (path ≠ [] →
      (∀ xdgf2 : List Char → Except E (List Char),
        LoadConfig xdgf decodeFile env path = LoadConfig xdgf2 decodeFile env path) ∧
      (∀ e, decodeFile path = Except.error e →
        LoadConfig xdgf decodeFile env path =
          Except.error (LoadError.decodeFailure e)) ∧
      (∀ c0, decodeFile path = Except.ok c0 →
        LoadConfig xdgf decodeFile env path = Except.ok (replaceEnvVars env c0))) ∧
    (path = [] → ∀ p, xdgf aiacRelPath = Except.ok p →
      (∀ e, decodeFile p = Except.error e →
        LoadConfig xdgf decodeFile env path =
          Except.error (LoadError.decodeFailure e)) ∧
      (∀ c0, decodeFile p = Except.ok c0 →
        LoadConfig xdgf decodeFile env path = Except.ok (replaceEnvVars env c0))) := by
  constructor
  · intro hne
    refine ⟨?_, ?_, ?_⟩
    · intro xdgf2
      simp [LoadConfig, resolvePath, hne]
    · intro e he
      simp [LoadConfig, resolvePath, hne, he]
    · intro c0 hc
      simp [LoadConfig, resolvePath, hne, hc]
  · intro hp p hxp
    refine ⟨?_, ?_⟩
    · intro e he
      simp [LoadConfig, resolvePath, hp, hxp, he]
    · intro c0 hc
      simp [LoadConfig, resolvePath, hp, hxp, hc]

/-- C10: `LoadConfig` is a function of its explicit inputs only, and among
those it reads the decoder only at the single resolved path: two decoders
that agree on the resolved path (same file contents there) give identical
results, for the same explicit path, resolver and environment. -/
theorem C10_load_deterministic {E : Type}
    (xdgf : List Char → Except E (List Char))
    (d1 d2 : List Char → Except E Config) (env : Env) (path : List Char)
    (h : ∀ p, resolvePath xdgf path = Except.ok p → d1 p = d2 p) :
    LoadConfig xdgf d1 env path = LoadConfig xdgf d2 env path := by
  unfold LoadConfig
  cases hr : resolvePath xdgf path with
  | error e => rfl
  | ok p => simp only [h p hr]

/-- C6: for any non-empty explicit path whose decode yields the document
`[backends.openai] type="openai" api_key="$MY_KEY"`, loading under the
environment `MY_KEY=sk-123` succeeds and the returned configuration has
`Backends["openai"].APIKey = "sk-123"`. -/
theorem C6_end_to_end {E : Type} (xdgf : List Char → Except E (List Char))
    (decodeFile : List Char → Except E Config) (path : List Char)
    (hpath : path ≠ []) (hdec : decodeFile path = Except.ok c6Conf) :
    ∃ conf, LoadConfig xdgf decodeFile c6Env path = Except.ok conf ∧
      (lookupAssoc conf.Backends "openai".toList).map BackendConfig.APIKey =
        some "sk-123".toList := by
  refine ⟨replaceEnvVars c6Env c6Conf, ?_, ?_⟩
  · simp [LoadConfig, resolvePath, hpath, hdec]
  · have hkey : replaceEnvVar c6Env "$MY_KEY".toList = "sk-123".toList := by
      have e1 : ("$MY_KEY".toList : List Char) =
          '$' :: (('M' :: "Y_KEY".toList) ++ []) := by decide
      have h := Expand_dollar_name (getenv c6Env) 'M' "Y_KEY".toList []
        (by decide) (by decide) (by decide) rfl
      calc replaceEnvVar c6Env "$MY_KEY".toList
          = Expand (getenv c6Env) ('$' :: (('M' :: "Y_KEY".toList) ++ [])) := by
            rw [replaceEnvVar, ExpandEnv, e1]
        _ = getenv c6Env ('M' :: "Y_KEY".toList) ++ Expand (getenv c6Env) [] := h
        _ = "sk-123".toList := by rw [Expand_nil]; decide
    have hne : ("$MY_KEY".toList : List Char) ≠ [] := by decide
    simp [replaceEnvVars, c6Conf, lookupAssoc, replaceEnvVarsStep_APIKey,
      c6Backend, hkey, hne]
    simpa using hkey

/-- C7: (spec-modelled decoder) every field absent from a successfully decoded
document equals its zero value — empty string for string fields, empty map for
`Backends` and `ExtraHeaders`; decoding is a total function of the document,
so no field is required for it to succeed. -/
theorem C7_zero_value_defaults :
    (∀ d : ConfigDoc,
      (d.backends = none → (decodeConfigDoc d).Backends = []) ∧
      (d.default_backend = none → (decodeConfigDoc d).DefaultBackend = [])) ∧
    (∀ b : BackendDoc,
      (b.type = none → (decodeBackendDoc b).«Type» = []) ∧
      (b.aws_profile = none → (decodeBackendDoc b).AWSProfile = []) ∧
      (b.aws_region = none → (decodeBackendDoc b).AWSRegion = []) ∧
      (b.api_key = none → (decodeBackendDoc b).APIKey = []) ∧
      (b.api_version = none → (decodeBackendDoc b).APIVersion = []) ∧
      (b.url = none → (decodeBackendDoc b).URL = []) ∧
      (b.default_model = none → (decodeBackendDoc b).DefaultModel = []) ∧
      (b.extra_headers = none → (decodeBackendDoc b).ExtraHeaders = [])) := by
  constructor
  · intro d
    constructor <;> intro h <;> simp [decodeConfigDoc, h]
  · intro b
    refine ⟨?_, ?_, ?_, ?_, ?_, ?_, ?_, ?_⟩ <;> intro h <;> simp [decodeBackendDoc, h]

/-! ## Witnesses -/

theorem C1_field_selection_witness :
    wPr ∈ wConf.Backends.zip ((replaceEnvVars envFOO wConf).Backends) ∧
    (wPr.2.1 = wPr.1.1 ∧
      wPr.2.2.«Type» = wPr.1.2.«Type» ∧
      wPr.2.2.ExtraHeaders = wPr.1.2.ExtraHeaders ∧
      (wPr.1.2.APIKey = [] → wPr.2.2.APIKey = []) ∧
      (wPr.1.2.APIKey ≠ [] → wPr.2.2.APIKey = replaceEnvVar envFOO wPr.1.2.APIKey) ∧
      (wPr.1.2.AWSProfile = [] → wPr.2.2.AWSProfile = []) ∧
      (wPr.1.2.AWSProfile ≠ [] → wPr.2.2.AWSProfile = replaceEnvVar envFOO wPr.1.2.AWSProfile) ∧
      (wPr.1.2.AWSRegion = [] → wPr.2.2.AWSRegion = []) ∧
      (wPr.1.2.AWSRegion ≠ [] → wPr.2.2.AWSRegion = replaceEnvVar envFOO wPr.1.2.AWSRegion) ∧
      (wPr.1.2.URL = [] → wPr.2.2.URL = []) ∧
      (wPr.1.2.URL ≠ [] → wPr.2.2.URL = replaceEnvVar envFOO wPr.1.2.URL) ∧
      (wPr.1.2.DefaultModel = [] → wPr.2.2.DefaultModel = []) ∧
      (wPr.1.2.DefaultModel ≠ [] → wPr.2.2.DefaultModel = replaceEnvVar envFOO wPr.1.2.DefaultModel) ∧
      (wPr.1.2.APIVersion = [] → wPr.2.2.APIVersion = []) ∧
      (wPr.1.2.APIVersion ≠ [] → wPr.2.2.APIVersion = replaceEnvVar envFOO wPr.1.2.APIVersion)) :=
  ⟨by decide, (C1_field_selection envFOO wConf).2 wPr (by decide)⟩

theorem C2_error_characterization_witness :
    LoadConfig wXdg wDecodeErr [] ([] : List Char) =
      Except.error (LoadError.decodeFailure 0) :=
  ((C2_error_characterization wXdg wDecodeErr [] []).2.1 0).mpr
    ⟨"home".toList, rfl, rfl⟩

theorem C3_explicit_path_verbatim_witness :
    wPath ≠ [] ∧
    LoadConfig wXdg wDecodeErr [] wPath = Except.error (LoadError.decodeFailure 0) :=
  ⟨by decide, ((C3_explicit_path_verbatim wXdg wDecodeErr [] wPath).1 (by decide)).2.1 0 rfl⟩

theorem C4_substitution_values_witness :
    ('$' ∉ "a-".toList) ∧ ("FOO".toList : List Char) ≠ [] ∧ rbrace ∉ "FOO".toList ∧
    replaceEnvVar envFOO
        ("a-".toList ++ braceRef "FOO".toList ++ "-".toList ++ braceRef "FOO".toList ++ []) =
      "a-".toList ++ getenv envFOO "FOO".toList ++ "-".toList ++ getenv envFOO "FOO".toList ++ [] :=
  ⟨by decide, by decide, by decide,
    C4_substitution_values.2.2.2 envFOO "a-".toList "-".toList [] "FOO".toList "FOO".toList
      (by decide) (by decide) (by decide) (by decide) (by decide) (by decide) (by decide)⟩

theorem C5_identity_on_plain_witness :
    ('$' ∉ "plain string".toList) ∧
    replaceEnvVar [] "plain string".toList = "plain string".toList :=
  ⟨by decide, C5_identity_on_plain [] "plain string".toList (by decide)⟩

theorem C6_end_to_end_witness :
    wPath ≠ [] ∧ wDecode wPath = Except.ok c6Conf ∧
    ∃ conf, LoadConfig wXdg wDecode c6Env wPath = Except.ok conf ∧
      (lookupAssoc conf.Backends "openai".toList).map BackendConfig.APIKey =
        some "sk-123".toList :=
  ⟨by decide, rfl, C6_end_to_end wXdg wDecode wPath (by decide) rfl⟩

theorem C7_zero_value_defaults_witness :
    (decodeConfigDoc wDoc).Backends = [] ∧
    (decodeConfigDoc wDoc).DefaultBackend = [] ∧
    (decodeBackendDoc wBackendDoc).«Type» = [] ∧
    (decodeBackendDoc wBackendDoc).AWSProfile = [] ∧
    (decodeBackendDoc wBackendDoc).AWSRegion = [] ∧
    (decodeBackendDoc wBackendDoc).APIKey = [] ∧
    (decodeBackendDoc wBackendDoc).APIVersion = [] ∧
    (decodeBackendDoc wBackendDoc).URL = [] ∧
    (decodeBackendDoc wBackendDoc).DefaultModel = [] ∧
    (decodeBackendDoc wBackendDoc).ExtraHeaders = [] :=
  ⟨(C7_zero_value_defaults.1 wDoc).1 rfl,
   (C7_zero_value_defaults.1 wDoc).2 rfl,
   (C7_zero_value_defaults.2 wBackendDoc).1 rfl,
   (C7_zero_value_defaults.2 wBackendDoc).2.1 rfl,
   (C7_zero_value_defaults.2 wBackendDoc).2.2.1 rfl,
   (C7_zero_value_defaults.2 wBackendDoc).2.2.2.1 rfl,
   (C7_zero_value_defaults.2 wBackendDoc).2.2.2.2.1 rfl,
   (C7_zero_value_defaults.2 wBackendDoc).2.2.2.2.2.1 rfl,
   (C7_zero_value_defaults.2 wBackendDoc).2.2.2.2.2.2.1 rfl,
   (C7_zero_value_defaults.2 wBackendDoc).2.2.2.2.2.2.2 rfl⟩

theorem C9_keys_preserved_witness :
    (("one".toList, wBackend) ∈ wConf.Backends) ∧
    ∃ bc2, ("one".toList, bc2) ∈ (replaceEnvVars envFOO wConf).Backends :=
  ⟨by decide, (C9_keys_preserved envFOO wConf).2 "one".toList wBackend (by decide)⟩

theorem C10_load_deterministic_witness :
    LoadConfig wXdg wDecode [] wPath = LoadConfig wXdg wDecode2 [] wPath :=
  C10_load_deterministic wXdg wDecode wDecode2 [] wPath (by
    intro p hp
    have hres : resolvePath wXdg wPath = Except.ok wPath := by
      unfold resolvePath
      rw [if_neg (by decide : ¬ (wPath = []))]
    rw [hres] at hp
    injection hp with h
    subst h
    rfl)

end Libaiac
